import Mathlib

/-!
Verification of the `weewx-jas` skin extension (`bin/user/jas.py`).

The file shallowly embeds the pure cores of the Python module:
Python exceptions become `Except` results, the filesystem and HTTP calls
become explicit inputs/outputs, machine floats that only ever hold exact
values (wind speeds, thresholds) become `ℚ`, and timestamps become `ℕ`/`ℤ`.
Each definition is translated from the identically named Python function.
-/

/-- The Python exceptions the embedded code can raise. -/
inductive PyExc where
  | attributeError (msg : String)
  | keyError (key : String)
  | indexError
  | typeError (msg : String)
  | valueError (msg : String)
  | jsonDecodeError
deriving DecidableEq, Repr

/-! ## `JAS.__init__`: the required `lang` setting (jas.py lines 199-200) -/

/-- `JAS.__init__`: `if 'lang' not in self.skin_dict: raise AttributeError(...)`.
The skin dictionary is represented by its list of top-level keys; the check is
the first validation performed during construction, before any output exists. -/
def jasInitLangCheck (skinKeys : List String) : Except PyExc Unit :=
  if "lang" ∉ skinKeys then
    Except.error (PyExc.attributeError "\x27lang\x27 setting is required.")
  else
    Except.ok ()

/-! ## `DataGenerator._get_observation_text` (jas.py lines 2295-2317) -/

/-- Splitting of a character list at every occurrence of `sep`, the semantics
of Python `str.split(sep)` for a one-character separator: the result is always
non-empty and keeps empty segments. -/
def splitOnChar (sep : Char) : List Char → List (List Char)
  | [] => [[]]
  | c :: rest =>
    if c = sep then [] :: splitOnChar sep rest
    else
      match splitOnChar sep rest with
      | [] => [[c]]
      | s :: ss => (c :: s) :: ss

/-- Python `coded_weather.split(":")` (on strings). -/
def pySplit (s : String) (sep : Char) : List String :=
  (splitOnChar sep s.data).map (fun l => ⟨l⟩)

/-- The cloud codes of `_get_observation_text`. -/
def cloud_codes : List String := ["CL", "FW", "SC", "BK", "OV"]

/-- `DataGenerator._get_observation_text`: split the coded weather string on
`:` into coverage, intensity and weather; indexing a missing part raises
`IndexError`, an empty coverage or intensity component is falsy and skipped. -/
def get_observation_text (coded_weather : String) : Except PyExc (List String) :=
  let parts := pySplit coded_weather ':'
  match parts[0]?, parts[1]?, parts[2]? with
  | some coverage_code, some intensity_code, some weather_code =>
    if weather_code ∈ cloud_codes then
      Except.ok ["cloud_code_" ++ weather_code]
    else
      Except.ok
        ((if coverage_code ≠ "" then ["coverage_code_" ++ coverage_code] else []) ++
         (if intensity_code ≠ "" then ["intensity_code_" ++ intensity_code] else []) ++
         ["weather_code_" ++ weather_code])
  | _, _, _ => Except.error PyExc.indexError

/-! ## `ChartGenerator._get_range` (jas.py lines 1967-1986) -/

/-- The numeric value of a non-empty all-digit character list (the core of
Python `int()` on an unsigned decimal string); `none` models `ValueError`. -/
def digitsVal? (cs : List Char) : Option Nat :=
  if cs ≠ [] ∧ cs.all (fun c => c.isDigit) then
    some (cs.foldl (fun a c => a * 10 + (c.toNat - 48)) 0)
  else
    none

/-- Python `int(s)` on an optionally signed decimal string (the only shapes
`_get_range` feeds it); `none` models `ValueError`. -/
def pyInt? (s : String) : Option Int :=
  match s.data with
  | '+' :: rest => (digitsVal? rest).map Int.ofNat
  | '-' :: rest => (digitsVal? rest).map (fun n => -(n : Int))
  | l => (digitsVal? l).map Int.ofNat

/-- `ChartGenerator._get_range`.  `first_year`/`last_year` are the years of the
database's first and last good records (host database calls, taken as inputs).
`start[:1] == "+"` is the test on the first character; a `start`/`end` that
`int()` cannot parse raises `ValueError`. -/
def get_range (start end_ : Option String) (first_year last_year : Int) :
    Except PyExc (Int × Int) := do
  let start_year : Int ←
    match start with
    | none => Except.ok first_year
    | some s =>
      if s.data.take 1 = ['+'] then
        match digitsVal? (s.data.drop 1) with
        | some n => Except.ok (first_year + n)
        | none => Except.error (PyExc.valueError s)
      else if s.data.take 1 = ['-'] then
        match digitsVal? (s.data.drop 1) with
        | some n => Except.ok (last_year - n)
        | none => Except.error (PyExc.valueError s)
      else
        match pyInt? s with
        | some n => Except.ok n
        | none => Except.error (PyExc.valueError s)
  let end_year : Int ←
    match end_ with
    | none => Except.ok (last_year + 1)
    | some e =>
      match pyInt? e with
      | some n => Except.ok (n + 1)
      | none => Except.error (PyExc.valueError e)
  Except.ok (start_year, end_year)

/-! ## Theorems -/

/-- C5: constructing `JAS` with a skin dictionary without a `lang` key raises
`AttributeError` with exactly the message `'lang' setting is required.`, and
when `lang` is present the check does not raise. -/
theorem jas_lang_check_spec (skinKeys : List String) :
    ("lang" ∉ skinKeys →
      jasInitLangCheck skinKeys =
        Except.error (PyExc.attributeError "\x27lang\x27 setting is required.")) ∧
    ("lang" ∈ skinKeys → jasInitLangCheck skinKeys = Except.ok ()) := by
  constructor
  · intro h
    simp [jasInitLangCheck, h]
  · intro h
    simp [jasInitLangCheck, h]

/-- Witness for C5 at the concrete skin dictionaries `{}` and `{lang: en}`. -/
theorem jas_lang_check_spec_witness :
    jasInitLangCheck [] =
      Except.error (PyExc.attributeError "\x27lang\x27 setting is required.") ∧
    jasInitLangCheck ["lang"] = Except.ok () :=
  ⟨(jas_lang_check_spec []).1 (by decide), (jas_lang_check_spec ["lang"]).2 (by decide)⟩

/-- C9: on a three-part coded weather string `coverage:intensity:weather`,
`_get_observation_text` returns a non-empty key list: exactly
`[cloud_code_<weather>]` for the five cloud codes, otherwise a list ending in
`weather_code_<weather>` preceded by the coverage and intensity keys exactly
when those components are non-empty. -/
theorem get_observation_text_spec (coded cov inten wea : String)
    (h : pySplit coded ':' = [cov, inten, wea]) :
    ∃ l, get_observation_text coded = Except.ok l ∧ l ≠ [] ∧
      (wea ∈ cloud_codes → l = ["cloud_code_" ++ wea]) ∧
      (wea ∉ cloud_codes →
        l = (if cov ≠ "" then ["coverage_code_" ++ cov] else []) ++
            (if inten ≠ "" then ["intensity_code_" ++ inten] else []) ++
            ["weather_code_" ++ wea] ∧
        l.getLast? = some ("weather_code_" ++ wea)) := by
  by_cases hc : wea ∈ cloud_codes
  · refine ⟨["cloud_code_" ++ wea], ?_, by simp, fun _ => rfl, fun hn => absurd hc hn⟩
    simp [get_observation_text, h, hc]
  · refine ⟨(if cov ≠ "" then ["coverage_code_" ++ cov] else []) ++
       (if inten ≠ "" then ["intensity_code_" ++ inten] else []) ++
       ["weather_code_" ++ wea], ?_, ?_, fun hcc => absurd hcc hc, fun _ => ⟨rfl, ?_⟩⟩
    · simp [get_observation_text, h, hc]
    · intro hnil
      rcases List.append_eq_nil.mp hnil with ⟨-, h2⟩
      exact List.cons_ne_nil _ _ h2
    · rw [List.getLast?_append]
      simp

/-- Witness for C9 at `"::CL"` (cloud code, empty components) and `"L:H:R"`. -/
theorem get_observation_text_spec_witness :
    (∃ l, get_observation_text "::CL" = Except.ok l ∧ l ≠ [] ∧
      ("CL" ∈ cloud_codes → l = ["cloud_code_" ++ "CL"]) ∧
      ("CL" ∉ cloud_codes →
        l = (if "" ≠ "" then ["coverage_code_" ++ ""] else []) ++
            (if "" ≠ "" then ["intensity_code_" ++ ""] else []) ++
            ["weather_code_" ++ "CL"] ∧
        l.getLast? = some ("weather_code_" ++ "CL"))) ∧
    (∃ l, get_observation_text "L:H:R" = Except.ok l ∧ l ≠ [] ∧
      ("R" ∈ cloud_codes → l = ["cloud_code_" ++ "R"]) ∧
      ("R" ∉ cloud_codes →
        l = (if "L" ≠ "" then ["coverage_code_" ++ "L"] else []) ++
            (if "H" ≠ "" then ["intensity_code_" ++ "H"] else []) ++
            ["weather_code_" ++ "R"] ∧
        l.getLast? = some ("weather_code_" ++ "R"))) :=
  ⟨get_observation_text_spec "::CL" "" "" "CL" (by decide),
   get_observation_text_spec "L:H:R" "L" "H" "R" (by decide)⟩

/-- C8: for every start/end argument pair, `_get_range` returns the half-open
year range the code computes: `end_year` is `int(end) + 1` when `end` is
given and `last_year + 1` when it is `None`; `start_year` is `int(start)`
for a plain value, `first_year` when `start` is `None`, `first_year + N` for
`'+N'` and `last_year - N` for `'-N'`.  The two hypotheses enumerate exactly
those shapes of the `start` and `end` arguments. -/
theorem get_range_spec (first_year last_year : Int)
    (start end_ : Option String) (start_year end_year : Int)
    (hs : (start = none ∧ start_year = first_year) ∨
      (∃ s m, start = some s ∧ s.data.take 1 = ['+'] ∧
        digitsVal? (s.data.drop 1) = some m ∧ start_year = first_year + m) ∨
      (∃ s m, start = some s ∧ s.data.take 1 = ['-'] ∧
        digitsVal? (s.data.drop 1) = some m ∧ start_year = last_year - m) ∨
      (∃ s, start = some s ∧ s.data.take 1 ≠ ['+'] ∧ s.data.take 1 ≠ ['-'] ∧
        pyInt? s = some start_year))
    (he : (end_ = none ∧ end_year = last_year + 1) ∨
      (∃ e n, end_ = some e ∧ pyInt? e = some n ∧ end_year = n + 1)) :
    get_range start end_ first_year last_year =
      Except.ok (start_year, end_year) := by
  rcases hs with ⟨rfl, rfl⟩ | ⟨s, m, rfl, h1, hd, rfl⟩ | ⟨s, m, rfl, h1, hd, rfl⟩ |
    ⟨s, rfl, h1, h2, hsy⟩
  · rcases he with ⟨rfl, rfl⟩ | ⟨e, nn, rfl, hpe, rfl⟩
    · rfl
    · simp only [get_range, hpe]
      rfl
  · rw [List.drop_one] at hd
    rcases he with ⟨rfl, rfl⟩ | ⟨e, nn, rfl, hpe, rfl⟩
    · simp only [get_range, if_pos h1, List.drop_one, hd]
      rfl
    · simp only [get_range, if_pos h1, List.drop_one, hd, hpe]
      rfl
  · have h2 : ¬ s.data.take 1 = ['+'] := by
      rw [h1]; decide
    rw [List.drop_one] at hd
    rcases he with ⟨rfl, rfl⟩ | ⟨e, nn, rfl, hpe, rfl⟩
    · simp only [get_range, if_neg h2, if_pos h1, List.drop_one, hd]
      rfl
    · simp only [get_range, if_neg h2, if_pos h1, List.drop_one, hd, hpe]
      rfl
  · rcases he with ⟨rfl, rfl⟩ | ⟨e, nn, rfl, hpe, rfl⟩
    · simp only [get_range, if_neg h1, if_neg h2, hsy]
      rfl
    · simp only [get_range, if_neg h1, if_neg h2, hsy, hpe]
      rfl

/-- Witness for C8 at `first_year = 2000`, `last_year = 2020`, covering
pairs with both arguments given (`"2005"`/`"2010"`, `"+2"`/`"2010"`,
`"-3"`/`"1999"`) as well as `None` start and `None` end. -/
theorem get_range_spec_witness :
    get_range (some "2005") (some "2010") 2000 2020 = Except.ok (2005, 2011) ∧
    get_range (some "+2") (some "2010") 2000 2020 = Except.ok (2002, 2011) ∧
    get_range (some "-3") (some "1999") 2000 2020 = Except.ok (2017, 2000) ∧
    get_range none none 2000 2020 = Except.ok (2000, 2021) ∧
    get_range none (some "1999") 2000 2020 = Except.ok (2000, 2000) :=
  ⟨get_range_spec 2000 2020 (some "2005") (some "2010") 2005 2011
     (Or.inr (Or.inr (Or.inr ⟨"2005", rfl, by decide, by decide, by decide⟩)))
     (Or.inr ⟨"2010", 2010, rfl, by decide, by decide⟩),
   get_range_spec 2000 2020 (some "+2") (some "2010") 2002 2011
     (Or.inr (Or.inl ⟨"+2", 2, rfl, by decide, by decide, by decide⟩))
     (Or.inr ⟨"2010", 2010, rfl, by decide, by decide⟩),
   get_range_spec 2000 2020 (some "-3") (some "1999") 2017 2000
     (Or.inr (Or.inr (Or.inl ⟨"-3", 3, rfl, by decide, by decide, by decide⟩)))
     (Or.inr ⟨"1999", 1999, rfl, by decide, by decide⟩),
   get_range_spec 2000 2020 none none 2000 2021
     (Or.inl ⟨rfl, rfl⟩) (Or.inl ⟨rfl, rfl⟩),
   get_range_spec 2000 2020 none (some "1999") 2000 2000
     (Or.inl ⟨rfl, rfl⟩)
     (Or.inr ⟨"1999", 1999, rfl, by decide, by decide⟩)⟩

/-! ## `DataGenerator._get_forecasts` / `_get_current_obs` cache refresh
(jas.py lines 2087-2099 and 2563-2575) -/

/-- `int(now - now % 3600)`: the current hour boundary.  `now` is
`time.time()` truncated to whole seconds, which leaves the value of the
expression unchanged. -/
def current_hour (now : Nat) : Nat := now - now % 3600

/-- The content of `forecast.json`: the `generated` stamp and the
`forecasts` member (opaque payload). -/
structure ForecastDoc (α : Type) where
  generated : Int
  forecasts : α
deriving DecidableEq, Repr

/-- The content of `current.json`: the `generated` stamp and the `current`
member (opaque payload). -/
structure CurrentDoc (α : Type) where
  generated : Int
  current : α
deriving DecidableEq, Repr

/-- `DataGenerator._get_forecasts`.  `file` is the parsed cache file when
`os.path.isfile` is true, `retrieved` the document `_retrieve_forecasts`
would produce for this hour.  The Bool records whether `_retrieve_forecasts`
was called. -/
def get_forecasts (now : Nat) (file : Option (ForecastDoc α))
    (retrieved : ForecastDoc α) : ForecastDoc α × Bool :=
  match file with
  | none => (retrieved, true)
  | some forecast_data =>
    if (current_hour now : Int) > forecast_data.generated then (retrieved, true)
    else (forecast_data, false)

/-- `DataGenerator._get_current_obs`, same caching structure as
`get_forecasts` over `current.json`. -/
def get_current_obs (now : Nat) (file : Option (CurrentDoc α))
    (retrieved : CurrentDoc α) : CurrentDoc α × Bool :=
  match file with
  | none => (retrieved, true)
  | some current_data =>
    if (current_hour now : Int) > current_data.generated then (retrieved, true)
    else (current_data, false)

/-! ## Directory creation (jas.py lines 2832-2841, 1559-1565, 2645-2651) -/

/-- An `OSError`, identified by its errno. -/
structure OSErr where
  errno : Nat
deriving DecidableEq, Repr

/-- `errno.EEXIST` (POSIX value 17). -/
def EEXIST : Nat := 17

/-- `errno.EACCES` (POSIX value 13), a representative non-`EEXIST` errno. -/
def EACCES : Nat := 13

/-- `DataGenerator.mkdir_p`: `result` is the outcome of `os.makedirs`
(`none` = success), `pathIsDir` the value of `os.path.isdir(path)` when the
call failed.  The exception is swallowed only for `EEXIST` on an existing
directory and re-raised otherwise. -/
def mkdir_p (result : Option OSErr) (pathIsDir : Bool) : Except OSErr Unit :=
  match result with
  | none => Except.ok ()
  | some exc =>
    if exc.errno = EEXIST ∧ pathIsDir = true then Except.ok ()
    else Except.error exc

/-- The `os.makedirs(destination_dir)` call of `ChartGenerator.run` wrapped in
`try ... except OSError: pass`: every `OSError` is swallowed. -/
def chart_generator_makedirs (result : Option OSErr) : Except OSErr Unit :=
  match result with
  | none => Except.ok ()
  | some _ => Except.ok ()

/-- The `os.makedirs(destination_dir)` call of `DataGenerator.run` wrapped in
`try ... except OSError: pass`: every `OSError` is swallowed. -/
def data_generator_makedirs (result : Option OSErr) : Except OSErr Unit :=
  match result with
  | none => Except.ok ()
  | some _ => Except.ok ()

/-- C2: for `_get_forecasts` and `_get_current_obs` alike, the remote API is
consulted exactly when the cache file is missing or the current hour boundary
`int(now - now % 3600)` is strictly greater than the cached `generated`
stamp; otherwise the cached document is returned unchanged with no retrieval. -/
theorem cache_refresh_spec (α β : Type) (now : Nat)
    (ffile : Option (ForecastDoc α)) (fretr : ForecastDoc α)
    (cfile : Option (CurrentDoc β)) (cretr : CurrentDoc β) :
    ((get_forecasts now ffile fretr).2 = true ↔
      ffile = none ∨ ∃ d, ffile = some d ∧ (current_hour now : Int) > d.generated) ∧
    (∀ d, ffile = some d → ¬ (current_hour now : Int) > d.generated →
      get_forecasts now ffile fretr = (d, false)) ∧
    ((get_current_obs now cfile cretr).2 = true ↔
      cfile = none ∨ ∃ d, cfile = some d ∧ (current_hour now : Int) > d.generated) ∧
    (∀ d, cfile = some d → ¬ (current_hour now : Int) > d.generated →
      get_current_obs now cfile cretr = (d, false)) := by
  refine ⟨?_, ?_, ?_, ?_⟩
  · cases ffile with
    | none => simp [get_forecasts]
    | some d =>
      by_cases hgt : (current_hour now : Int) > d.generated <;>
        simp [get_forecasts, hgt]
  · intro d hd hgt
    subst hd
    simp [get_forecasts, hgt]
  · cases cfile with
    | none => simp [get_current_obs]
    | some d =>
      by_cases hgt : (current_hour now : Int) > d.generated <;>
        simp [get_current_obs, hgt]
  · intro d hd hgt
    subst hd
    simp [get_current_obs, hgt]

/-- Witness for C2: at `now = 7300` a cache generated at hour 7200 is fresh
and returned unchanged; a cache generated at 3600 is stale and refreshed;
a missing cache file is always retrieved. -/
theorem cache_refresh_spec_witness :
    get_forecasts 7300 (some ⟨7200, 0⟩) ⟨7200, (1 : Nat)⟩ = (⟨7200, 0⟩, false) ∧
    (get_forecasts 7300 (some (⟨3600, 0⟩ : ForecastDoc Nat)) ⟨7200, 1⟩).2 = true ∧
    (get_current_obs 7300 (none : Option (CurrentDoc Nat)) ⟨7200, 1⟩).2 = true ∧
    get_current_obs 7300 (some ⟨7200, 2⟩) ⟨7200, (3 : Nat)⟩ = (⟨7200, 2⟩, false) := by
  refine ⟨?_, ?_, ?_, ?_⟩
  · exact (cache_refresh_spec Nat Nat 7300 (some ⟨7200, 0⟩) ⟨7200, 1⟩ none ⟨0, 0⟩).2.1
      ⟨7200, 0⟩ rfl (by decide)
  · exact ((cache_refresh_spec Nat Nat 7300 (some ⟨3600, 0⟩) ⟨7200, 1⟩ none ⟨0, 0⟩).1).mpr
      (Or.inr ⟨⟨3600, 0⟩, rfl, by decide⟩)
  · exact ((cache_refresh_spec Nat Nat 7300 none ⟨0, 0⟩ none ⟨7200, 1⟩).2.2.1).mpr
      (Or.inl rfl)
  · exact (cache_refresh_spec Nat Nat 7300 none ⟨0, 0⟩ (some ⟨7200, 2⟩) ⟨7200, 3⟩).2.2.2
      ⟨7200, 2⟩ rfl (by decide)

/-- C6 counterexample: in `ChartGenerator.run` the directory-creation
`OSError` handler is a bare `except OSError: pass`, so an `EACCES`
(permission denied) failure is suppressed instead of propagating. -/
theorem makedirs_suppression_counterexample :
    chart_generator_makedirs (some ⟨EACCES⟩) = Except.ok () ∧ EACCES ≠ EEXIST := by
  exact ⟨rfl, by decide⟩

/-- C6 (amended): `mkdir_p` suppresses an `OSError` exactly when its errno is
`EEXIST` and the path is a directory, re-raising every other one; the
directory-creation sites in `ChartGenerator.run` and `DataGenerator.run`
suppress every `OSError`. -/
theorem makedirs_suppression_spec :
    (∀ exc pathIsDir, mkdir_p (some exc) pathIsDir = Except.ok () ↔
      (exc.errno = EEXIST ∧ pathIsDir = true)) ∧
    (∀ exc pathIsDir, ¬ (exc.errno = EEXIST ∧ pathIsDir = true) →
      mkdir_p (some exc) pathIsDir = Except.error exc) ∧
    (∀ pathIsDir, mkdir_p none pathIsDir = Except.ok ()) ∧
    (∀ result, chart_generator_makedirs result = Except.ok ()) ∧
    (∀ result, data_generator_makedirs result = Except.ok ()) := by
  refine ⟨?_, ?_, fun _ => rfl, ?_, ?_⟩
  · intro exc pathIsDir
    by_cases h : exc.errno = EEXIST ∧ pathIsDir = true <;> simp [mkdir_p, h]
  · intro exc pathIsDir h
    simp [mkdir_p, h]
  · intro result
    cases result <;> rfl
  · intro result
    cases result <;> rfl

/-- Witness for C6 (amended): `EEXIST` on a directory is suppressed, `EACCES`
propagates from `mkdir_p`, and the two `run` sites suppress `EACCES`. -/
theorem makedirs_suppression_spec_witness :
    (mkdir_p (some ⟨EEXIST⟩) true = Except.ok ()) ∧
    (mkdir_p (some ⟨EACCES⟩) true = Except.error ⟨EACCES⟩) ∧
    (chart_generator_makedirs (some ⟨EACCES⟩) = Except.ok ()) ∧
    (data_generator_makedirs (some ⟨EACCES⟩) = Except.ok ()) :=
  ⟨(makedirs_suppression_spec.1 ⟨EEXIST⟩ true).mpr (by decide),
   makedirs_suppression_spec.2.1 ⟨EACCES⟩ true (by decide),
   makedirs_suppression_spec.2.2.2.1 (some ⟨EACCES⟩),
   makedirs_suppression_spec.2.2.2.2 (some ⟨EACCES⟩)⟩

/-! ## `DataGenerator.__init__` API URLs (jas.py lines 2029-2050) -/

/-- `forecast_endpoint = 'https://api.aerisapi.com/forecasts/'`. -/
def forecast_endpoint : String := "https://api.aerisapi.com/forecasts/"

/-- `current_endpoint = 'https://api.aerisapi.com/observations/'`. -/
def current_endpoint : String := "https://api.aerisapi.com/observations/"

/-- `self.forecast_url`, the two f-string concatenations of
`DataGenerator.__init__`. -/
def forecast_url (latitude longitude client_id client_secret : String) : String :=
  (forecast_endpoint ++ latitude ++ "," ++ longitude ++ "?") ++
  ("format=json&filter=day&limit=7&client_id=" ++ client_id ++
   "&client_secret=" ++ client_secret)

/-- `self.current_url`, the two f-string concatenations of
`DataGenerator.__init__` (note the doubled `?&`). -/
def current_url (latitude longitude client_id client_secret : String) : String :=
  (current_endpoint ++ latitude ++ "," ++ longitude ++ "?") ++
  ("&format=json&filter=allstations&limit=1&client_id=" ++ client_id ++
   "&client_secret=" ++ client_secret)

/-- The URL construction of `DataGenerator.__init__`:
`client_id = self.skin_dict['Extras'].get('client_id')` is `none` when the
option is absent, and `if client_id:` is Python truthiness (non-empty).
Exactly when it holds, the two request URLs are built. -/
def build_api_urls (client_id : Option String)
    (client_secret latitude longitude : String) : Option (String × String) :=
  match client_id with
  | none => none
  | some cid =>
    if cid ≠ "" then
      some (forecast_url latitude longitude cid client_secret,
            current_url latitude longitude cid client_secret)
    else none

/-- `url` carries `key=val` as a query-string fragment. -/
def hasQueryParam (url key val : String) : Prop :=
  ∃ before after, url = before ++ (key ++ "=" ++ val) ++ after

/-- C7: with a truthy `client_id`, `DataGenerator.__init__` builds exactly the
forecast and observations URLs, each `api.aerisapi.com` endpoint followed by
`latitude,longitude`, and both embedding `client_id` and `client_secret` as
query-string parameters; without one, no URL is built. -/
theorem api_urls_spec (cid client_secret latitude longitude : String) :
    (cid ≠ "" →
      ∃ furl curl,
        build_api_urls (some cid) client_secret latitude longitude =
          some (furl, curl) ∧
        (∃ rest, furl = "https://api.aerisapi.com/forecasts/" ++
          (latitude ++ "," ++ longitude) ++ "?" ++ rest) ∧
        (∃ rest, curl = "https://api.aerisapi.com/observations/" ++
          (latitude ++ "," ++ longitude) ++ "?" ++ rest) ∧
        hasQueryParam furl "client_id" cid ∧
        hasQueryParam furl "client_secret" client_secret ∧
        hasQueryParam curl "client_id" cid ∧
        hasQueryParam curl "client_secret" client_secret) ∧
    build_api_urls none client_secret latitude longitude = none ∧
    build_api_urls (some "") client_secret latitude longitude = none := by
  refine ⟨?_, rfl, rfl⟩
  intro hcid
  refine ⟨forecast_url latitude longitude cid client_secret,
          current_url latitude longitude cid client_secret,
          by simp [build_api_urls, hcid], ?_, ?_, ?_, ?_, ?_, ?_⟩
  · refine ⟨"format=json&filter=day&limit=7&client_id=" ++ cid ++
      "&client_secret=" ++ client_secret, ?_⟩
    apply String.ext
    simp only [forecast_url, forecast_endpoint, String.data_append]
    simp [List.append_assoc]
  · refine ⟨"&format=json&filter=allstations&limit=1&client_id=" ++ cid ++
      "&client_secret=" ++ client_secret, ?_⟩
    apply String.ext
    simp only [current_url, current_endpoint, String.data_append]
    simp [List.append_assoc]
  · refine ⟨"https://api.aerisapi.com/forecasts/" ++ latitude ++ "," ++
      longitude ++ "?format=json&filter=day&limit=7&",
      "&client_secret=" ++ client_secret, ?_⟩
    apply String.ext
    simp only [forecast_url, forecast_endpoint, String.data_append]
    simp [List.append_assoc]
  · refine ⟨"https://api.aerisapi.com/forecasts/" ++ latitude ++ "," ++
      longitude ++ "?format=json&filter=day&limit=7&client_id=" ++ cid ++ "&",
      "", ?_⟩
    apply String.ext
    simp only [forecast_url, forecast_endpoint, String.data_append]
    simp [List.append_assoc]
  · refine ⟨"https://api.aerisapi.com/observations/" ++ latitude ++ "," ++
      longitude ++ "?&format=json&filter=allstations&limit=1&",
      "&client_secret=" ++ client_secret, ?_⟩
    apply String.ext
    simp only [current_url, current_endpoint, String.data_append]
    simp [List.append_assoc]
  · refine ⟨"https://api.aerisapi.com/observations/" ++ latitude ++ "," ++
      longitude ++ "?&format=json&filter=allstations&limit=1&client_id=" ++
      cid ++ "&", "", ?_⟩
    apply String.ext
    simp only [current_url, current_endpoint, String.data_append]
    simp [List.append_assoc]

/-- Witness for C7 at client id `abc`, secret `s3c`, station `10.5,-3.25`. -/
theorem api_urls_spec_witness :
    ∃ furl curl,
      build_api_urls (some "abc") "s3c" "10.5" "-3.25" = some (furl, curl) ∧
      (∃ rest, furl = "https://api.aerisapi.com/forecasts/" ++
        ("10.5" ++ "," ++ "-3.25") ++ "?" ++ rest) ∧
      (∃ rest, curl = "https://api.aerisapi.com/observations/" ++
        ("10.5" ++ "," ++ "-3.25") ++ "?" ++ rest) ∧
      hasQueryParam furl "client_id" "abc" ∧
      hasQueryParam furl "client_secret" "s3c" ∧
      hasQueryParam curl "client_id" "abc" ∧
      hasQueryParam curl "client_secret" "s3c" :=
  (api_urls_spec "abc" "s3c" "10.5" "-3.25").1 (by decide)

/-! ## `DataGenerator._call_api` (jas.py lines 2062-2085) -/

/-- A JSON value, as `json.loads` produces it. -/
inductive JsonV where
  | null
  | boolean (b : Bool)
  | num (q : ℚ)
  | str (s : String)
  | arr (elems : List JsonV)
  | obj (fields : List (String × JsonV))

/-- Python truthiness of a JSON value. -/
def truthy : JsonV → Bool
  | JsonV.null => false
  | JsonV.boolean b => b
  | JsonV.num q => decide (q ≠ 0)
  | JsonV.str s => decide (s ≠ "")
  | JsonV.arr l => !l.isEmpty
  | JsonV.obj l => !l.isEmpty

/-- Python dict indexing on a JSON object's fields (keys are unique, the
first match is the value). -/
def pyLookup (key : String) : List (String × JsonV) → Option JsonV
  | [] => none
  | (k, v) :: rest => if k = key then some v else pyLookup key rest

/-- The observable outcome of `urlopen(request)` plus reading the body:
a 2xx response, an `HTTPError` (whose error body is read instead), or a
`URLError`.  The carried value is the JSON parse of the body text, `none`
when the text is not valid JSON (`json.loads` raises). -/
inductive HttpOutcome where
  | ok (body : Option (List (String × JsonV)))
  | httpError (body : Option (List (String × JsonV)))
  | urlError

/-- The `body` that reaches `json.loads`: the response body, the `HTTPError`
body, or the literal `"{}"` set after a logged `URLError`. -/
def call_api_body : HttpOutcome → Option (List (String × JsonV))
  | HttpOutcome.ok b => b
  | HttpOutcome.httpError b => b
  | HttpOutcome.urlError => some []

/-- The no-success branch of `_call_api`: log
`data['error']['description']` when an `error` member exists (indexing a
non-dict or a dict without `description` raises), then return `{}`. -/
def call_api_error_return (data : List (String × JsonV)) : Except PyExc JsonV :=
  match pyLookup "error" data with
  | some (JsonV.obj fields) =>
    match pyLookup "description" fields with
    | some _ => Except.ok (JsonV.obj [])
    | none => Except.error (PyExc.keyError "description")
  | some _ => Except.error (PyExc.typeError "indexing a non-dict with a string")
  | none => Except.ok (JsonV.obj [])

/-- `DataGenerator._call_api`: `HTTPError` and `URLError` are caught; the
body is then parsed and `data['response']` returned only under a truthy
`success`, an empty dict otherwise. -/
def call_api (outcome : HttpOutcome) : Except PyExc JsonV :=
  match call_api_body outcome with
  | none => Except.error PyExc.jsonDecodeError
  | some data =>
    match pyLookup "success" data with
    | some sv =>
      if truthy sv then
        match pyLookup "response" data with
        | some r => Except.ok r
        | none => Except.error (PyExc.keyError "response")
      else call_api_error_return data
    | none => call_api_error_return data

/-- The `error` member, when present, is an object with a `description`
(what the Aeris envelope guarantees and the logging line relies on). -/
def error_member_wellformed (data : List (String × JsonV)) : Prop :=
  match pyLookup "error" data with
  | some (JsonV.obj fields) => (pyLookup "description" fields).isSome = true
  | some _ => False
  | none => True

/-- Under `error_member_wellformed` the no-success branch returns `{}`. -/
theorem call_api_error_return_ok (data : List (String × JsonV))
    (hwf : error_member_wellformed data) :
    call_api_error_return data = Except.ok (JsonV.obj []) := by
  unfold error_member_wellformed at hwf
  cases he : pyLookup "error" data with
  | none => simp only [call_api_error_return, he]
  | some v =>
    rw [he] at hwf
    cases v with
    | obj fields =>
      dsimp only at hwf
      cases hd : pyLookup "description" fields with
      | none => rw [hd] at hwf; simp at hwf
      | some d => simp only [call_api_error_return, he, hd]
    | null => dsimp only at hwf
    | boolean b => dsimp only at hwf
    | num q => dsimp only at hwf
    | str s => dsimp only at hwf
    | arr l => dsimp only at hwf

/-- C4 counterexample: `_call_api` can propagate an exception.  An
`HTTPError` whose error body is not JSON makes `json.loads` raise
(uncaught), and a parsed body without truthy `success` but with an `error`
member lacking `description` makes the logging line raise `KeyError`
instead of returning the empty dict the claim promises. -/
theorem call_api_counterexample :
    call_api (HttpOutcome.httpError none) = Except.error PyExc.jsonDecodeError ∧
    call_api (HttpOutcome.ok (some [("success", JsonV.boolean false),
        ("error", JsonV.obj [])])) =
      Except.error (PyExc.keyError "description") :=
  ⟨rfl, rfl⟩

/-- C4 (amended): `HTTPError` and `URLError` themselves are always caught (a
`URLError` in particular always yields the empty dict); provided the body
parses as a JSON object whose `error` member, if any, is an object carrying a
`description`, `_call_api` returns `data['response']` exactly under a present
truthy `success` and the empty dict otherwise; a non-JSON body or a malformed
`error` member raises. -/
theorem call_api_spec (outcome : HttpOutcome) (data : List (String × JsonV))
    (hbody : call_api_body outcome = some data)
    (hwf : error_member_wellformed data) :
    (∀ sv r, pyLookup "success" data = some sv → truthy sv = true →
      pyLookup "response" data = some r → call_api outcome = Except.ok r) ∧
    (pyLookup "success" data = none →
      call_api outcome = Except.ok (JsonV.obj [])) ∧
    (∀ sv, pyLookup "success" data = some sv → truthy sv = false →
      call_api outcome = Except.ok (JsonV.obj [])) ∧
    call_api HttpOutcome.urlError = Except.ok (JsonV.obj []) := by
  refine ⟨?_, ?_, ?_, rfl⟩
  · intro sv r hsv htr hr
    simp only [call_api, hbody, hsv, htr, hr, if_true]
  · intro hsv
    simp only [call_api, hbody, hsv]
    exact call_api_error_return_ok data hwf
  · intro sv hsv htr
    simp only [call_api, hbody, hsv, htr, Bool.false_eq_true, if_false]
    exact call_api_error_return_ok data hwf

/-- Witness for C4 (amended) at two concrete responses: a successful
envelope returning its `response` member, and a failed one returning `{}`. -/
theorem call_api_spec_witness :
    call_api (HttpOutcome.ok (some [("success", JsonV.boolean true),
        ("response", JsonV.str "R")])) = Except.ok (JsonV.str "R") ∧
    call_api (HttpOutcome.ok (some [("success", JsonV.boolean false),
        ("error", JsonV.obj [("description", JsonV.str "err")])])) =
      Except.ok (JsonV.obj []) :=
  ⟨(call_api_spec (HttpOutcome.ok (some [("success", JsonV.boolean true),
      ("response", JsonV.str "R")]))
      [("success", JsonV.boolean true), ("response", JsonV.str "R")]
      rfl trivial).1 (JsonV.boolean true) (JsonV.str "R") rfl rfl rfl,
   (call_api_spec (HttpOutcome.ok (some [("success", JsonV.boolean false),
      ("error", JsonV.obj [("description", JsonV.str "err")])]))
      [("success", JsonV.boolean false),
       ("error", JsonV.obj [("description", JsonV.str "err")])]
      rfl (by unfold error_member_wellformed; rfl)).2.2.1
      (JsonV.boolean false) rfl rfl⟩

/-! ## Output file writes (jas.py lines 1617-1629 and 2695-2707) -/

/-- The filesystem: each path maps to the byte content of the file there, or
`none` when no file exists. -/
def FS : Type := String → Option (List Nat)

/-- Point update of the filesystem. -/
def fsUpdate (fs : FS) (p : String) (v : Option (List Nat)) : FS :=
  fun q => if q = p then v else fs q

/-- The file operations the write loop in `ChartGenerator.run` /
`DataGenerator.run` performs, at the granularity the OS observes: opening
with truncation, appending one byte of the buffer, `os.rename`, and the
`finally` block's `os.unlink` with `OSError` swallowed. -/
inductive FileOp where
  | openTrunc (path : String)
  | writeChunk (path : String) (byte : Nat)
  | rename (src dst : String)
  | unlinkTry (path : String)

/-- Effect of one operation.  A `writeChunk`/`rename` on a missing file
leaves the filesystem unchanged (never reached by the generated trace). -/
def applyOp (fs : FS) : FileOp → FS
  | FileOp.openTrunc p => fsUpdate fs p (some [])
  | FileOp.writeChunk p b =>
    match fs p with
    | some cur => fsUpdate fs p (some (cur ++ [b]))
    | none => fs
  | FileOp.rename src dst =>
    match fs src with
    | some v => fsUpdate (fsUpdate fs src none) dst (some v)
    | none => fs
  | FileOp.unlinkTry p => fsUpdate fs p none

/-- Running a trace of operations. -/
def runOps (fs : FS) (ops : List FileOp) : FS := ops.foldl applyOp fs

/-- The trace of the `try/finally` write block shared by `ChartGenerator.run`
and `DataGenerator.run`: `tmpname = filename + '.tmp'`, open `tmpname` in
`wb` mode, write the byte string, `os.rename(tmpname, filename)`, and the
`finally` unlink of `tmpname` (which, the rename having consumed it, fails
and is swallowed). -/
def write_then_rename (filename : String) (content : List Nat) : List FileOp :=
  FileOp.openTrunc (filename ++ ".tmp") ::
  (content.map (FileOp.writeChunk (filename ++ ".tmp")) ++
   [FileOp.rename (filename ++ ".tmp") filename,
    FileOp.unlinkTry (filename ++ ".tmp")])

/-- `filename + '.tmp'` is a different path from `filename`. -/
theorem tmpname_ne (s : String) : s ++ ".tmp" ≠ s := by
  intro h
  have hlen := congrArg String.length h
  rw [String.length_append] at hlen
  have h4 : ".tmp".length = 4 := rfl
  rw [h4] at hlen
  omega

/-- A run of `writeChunk`s on `tmp` touches no other path. -/
theorem runOps_writeChunks_other (tmp q : String) (hq : q ≠ tmp)
    (rest : List Nat) : ∀ fs : FS,
    runOps fs (rest.map (FileOp.writeChunk tmp)) q = fs q := by
  induction rest with
  | nil => intro fs; rfl
  | cons b rest ih =>
    intro fs
    show runOps (applyOp fs (FileOp.writeChunk tmp b)) _ q = fs q
    rw [ih]
    cases hft : fs tmp with
    | none => simp [applyOp, hft]
    | some cur => simp [applyOp, hft, fsUpdate, hq]

/-- A run of `writeChunk`s on an open `tmp` appends the bytes in order. -/
theorem runOps_writeChunks_tmp (tmp : String) (rest : List Nat) :
    ∀ (fs : FS) (done : List Nat), fs tmp = some done →
    runOps fs (rest.map (FileOp.writeChunk tmp)) tmp = some (done ++ rest) := by
  induction rest with
  | nil => intro fs done h; simpa [runOps] using h
  | cons b rest ih =>
    intro fs done h
    show runOps (applyOp fs (FileOp.writeChunk tmp b)) _ tmp = _
    have hstep : applyOp fs (FileOp.writeChunk tmp b) =
        fsUpdate fs tmp (some (done ++ [b])) := by
      simp [applyOp, h]
    rw [hstep, ih (fsUpdate fs tmp (some (done ++ [b]))) (done ++ [b])
      (by simp [fsUpdate])]
    simp


/-- C3: every generated output file is written completely to
`<filename>.tmp` and moved into place by `os.rename`: after the block the
destination holds exactly the full content and the temporary file is gone,
the destination is untouched by every step up to and including the last
write (only the rename creates or replaces it), and at no intermediate point
does the destination hold anything but its old content or the complete new
content. -/
theorem write_then_rename_spec (fs : FS) (filename : String) (content : List Nat) :
    (runOps fs (write_then_rename filename content) filename = some content) ∧
    (runOps fs (write_then_rename filename content) (filename ++ ".tmp") = none) ∧
    (∀ k, k ≤ content.length + 1 →
      runOps fs ((write_then_rename filename content).take k) filename =
        fs filename) ∧
    (∀ k,
      runOps fs ((write_then_rename filename content).take k) filename =
        fs filename ∨
      runOps fs ((write_then_rename filename content).take k) filename =
        some content) := by
  have hne : filename ≠ filename ++ ".tmp" := (tmpname_ne filename).symm
  set tmp := filename ++ ".tmp" with htmp
  set chunks := content.map (FileOp.writeChunk tmp) with hchunks
  set fs1 := applyOp fs (FileOp.openTrunc tmp) with hfs1
  have hfs1tmp : fs1 tmp = some [] := by simp [hfs1, applyOp, fsUpdate]
  have hfs1dst : fs1 filename = fs filename := by
    simp [hfs1, applyOp, fsUpdate, hne]
  set fs2 := runOps fs1 chunks with hfs2
  have hfs2tmp : fs2 tmp = some content := by
    rw [hfs2, hchunks, runOps_writeChunks_tmp tmp content fs1 [] hfs1tmp]
    simp
  have hfs2dst : fs2 filename = fs filename := by
    rw [hfs2, hchunks, runOps_writeChunks_other tmp filename hne content fs1]
    exact hfs1dst
  set ren := FileOp.rename tmp filename with hren
  set unl := FileOp.unlinkTry tmp with hunl
  have hsplit : write_then_rename filename content =
      FileOp.openTrunc tmp :: (chunks ++ [ren, unl]) := rfl
  have hrenstep : applyOp fs2 ren =
      fsUpdate (fsUpdate fs2 tmp none) filename (some content) := by
    simp [hren, applyOp, hfs2tmp]
  have hfs3dst : applyOp fs2 ren filename = some content := by
    rw [hrenstep]; simp [fsUpdate]
  have hfs3tmp : applyOp fs2 ren tmp = none := by
    rw [hrenstep]
    simp [fsUpdate, Ne.symm hne]
  have hwhole : runOps fs (write_then_rename filename content) =
      applyOp (applyOp fs2 ren) unl := by
    rw [hsplit]
    show runOps (applyOp fs (FileOp.openTrunc tmp)) (chunks ++ [ren, unl]) = _
    rw [← hfs1]
    show List.foldl applyOp fs1 (chunks ++ [ren, unl]) = _
    rw [List.foldl_append]
    rfl
  have hfinal_dst : runOps fs (write_then_rename filename content) filename =
      some content := by
    rw [hwhole]
    show fsUpdate (applyOp fs2 ren) tmp none filename = _
    simp [fsUpdate, hne, hfs3dst]
  have hfinal_tmp : runOps fs (write_then_rename filename content) tmp = none := by
    rw [hwhole]
    show fsUpdate (applyOp fs2 ren) tmp none tmp = _
    simp [fsUpdate]
  have hpre : ∀ k, k ≤ content.length + 1 →
      runOps fs ((write_then_rename filename content).take k) filename =
        fs filename := by
    intro k hk
    cases k with
    | zero => rfl
    | succ j =>
      have hj : j ≤ content.length := Nat.lt_succ_iff.mp hk
      rw [hsplit, List.take_succ_cons]
      have htake : (chunks ++ [ren, unl]).take j = (content.take j).map
          (FileOp.writeChunk tmp) := by
        rw [List.take_append_of_le_length (by simpa [hchunks] using hj),
          hchunks, ← List.map_take]
      rw [htake]
      show runOps fs1 ((content.take j).map (FileOp.writeChunk tmp)) filename =
        fs filename
      rw [runOps_writeChunks_other tmp filename hne (content.take j) fs1]
      exact hfs1dst
  refine ⟨hfinal_dst, hfinal_tmp, hpre, ?_⟩
  intro k
  by_cases hk : k ≤ content.length + 1
  · exact Or.inl (hpre k hk)
  · right
    by_cases hk2 : k = content.length + 2
    · have htake2 : (chunks ++ [ren, unl]).take (content.length + 1) =
          chunks ++ [ren] := by
        rw [List.take_append_eq_append_take,
          List.take_of_length_le (by simp [hchunks]),
          (by simp [hchunks] : (content.length + 1) - chunks.length = 1)]
        rfl
      rw [hk2, hsplit, List.take_succ_cons, htake2]
      show runOps fs1 (chunks ++ [ren]) filename = some content
      show List.foldl applyOp fs1 (chunks ++ [ren]) filename = some content
      rw [List.foldl_append]
      show applyOp fs2 ren filename = some content
      exact hfs3dst
    · have hk3 : (write_then_rename filename content).length ≤ k := by
        have hlen : (write_then_rename filename content).length =
            content.length + 3 := by
          simp [hsplit, hchunks]
        omega
      rw [List.take_of_length_le hk3]
      exact hfinal_dst

/-- Witness for C3 on the empty filesystem, destination `f`, content `[7, 9]`:
the final state, the tmp file's absence, and the destination's value after
each prefix of the trace. -/
theorem write_then_rename_spec_witness :
    (runOps (fun _ => none) (write_then_rename "f" [7, 9]) "f" = some [7, 9]) ∧
    (runOps (fun _ => none) (write_then_rename "f" [7, 9]) ("f" ++ ".tmp") = none) ∧
    (runOps (fun _ => none) ((write_then_rename "f" [7, 9]).take 3) "f" =
      (fun _ => none) "f") ∧
    (runOps (fun _ => none) ((write_then_rename "f" [7, 9]).take 4) "f" =
      (fun _ => none) "f" ∨
     runOps (fun _ => none) ((write_then_rename "f" [7, 9]).take 4) "f" =
      some [7, 9]) :=
  ⟨(write_then_rename_spec (fun _ => none) "f" [7, 9]).1,
   (write_then_rename_spec (fun _ => none) "f" [7, 9]).2.1,
   (write_then_rename_spec (fun _ => none) "f" [7, 9]).2.2.1 3 (by decide),
   (write_then_rename_spec (fun _ => none) "f" [7, 9]).2.2.2 4⟩

/-! ## `DataGenerator._get_wind_compass` (jas.py lines 2415-2497) -/

/-- `self.wind_ranges_count = 7`. -/
def wind_ranges_count : Nat := 7

/-- One record of the converted wind series, restricted to index `i`:
the converted `windSpeed` value (`none` = missing), the compass ordinal the
host formatter's `to_ordinal_compass` assigns to `windDir[i]` (an index into
the first `len(ordinate_names) - 1` names), and the converted `windGust`
value. -/
structure WindSample (n : Nat) where
  speed : Option ℚ
  ord : Fin n
  gust : ℚ

/-- One entry of the `wind_data` dict: `sum`, `count`, `max` and the
7-element `speed_data` bucket list. -/
structure WindOrdData where
  sum : ℚ
  count : Nat
  max : ℚ
  speed_data : List Nat

/-- The initialization loop of `_get_wind_compass`: one zeroed record per
ordinate name (the trailing `N/A` excluded), `speed_data` a list of
`wind_ranges_count` zeros. -/
def initWindData (n : Nat) : List WindOrdData :=
  List.replicate n
    { sum := 0, count := 0, max := 0,
      speed_data := List.replicate wind_ranges_count 0 }

/-- The index the `for wind_range in self.wind_ranges[wind_unit]` loop stops
at: the first index whose range bound exceeds the speed (`none` when the
loop runs off the end without a `break`). -/
def firstIdxWhere (p : ℚ → Bool) : List ℚ → Option Nat
  | [] => none
  | r :: rest => if p r then some 0 else (firstIdxWhere p rest).map (fun j => j + 1)

/-- The body of the per-sample branch of `_get_wind_compass` for one
positive speed: add to `sum`, bump `count`, raise `max` to the gust when the
gust exceeds it, and increment the bucket of the first range bound above the
speed (none when the speed reaches the top bound). -/
def updateOrd (ranges : List ℚ) (sp gust : ℚ) (d : WindOrdData) : WindOrdData :=
  { sum := d.sum + sp
    count := d.count + 1
    max := if d.max < gust then gust else d.max
    speed_data :=
      match firstIdxWhere (fun r => decide (sp < r)) ranges with
      | some j => List.modify (fun c => c + 1) j d.speed_data
      | none => d.speed_data }

/-- One iteration of the main loop of `_get_wind_compass`
(`if wind_speed and wind_speed > 0`). -/
def procSample {n : Nat} (ranges : List ℚ) (wd : List WindOrdData)
    (s : WindSample n) : List WindOrdData :=
  match s.speed with
  | none => wd
  | some sp =>
    if 0 < sp then List.modify (updateOrd ranges sp s.gust) s.ord.val wd
    else wd

/-- The `wind_data` dict after the main loop of `_get_wind_compass` (dict
insertion order = ordinal index order). -/
def windData (n : Nat) (ranges : List ℚ) (samples : List (WindSample n)) :
    List WindOrdData :=
  samples.foldl (procSample ranges) (initWindData n)

/-- `DataGenerator._get_wind_compass`: the averages list, the maxima list
and the transposed bucket lists `wind_compass_speeds`. -/
def get_wind_compass (n : Nat) (ranges : List ℚ) (samples : List (WindSample n)) :
    List ℚ × List ℚ × List (List Nat) :=
  let wd := windData n ranges samples
  (wd.map (fun d => if 0 < d.count then d.sum / (d.count : ℚ) else 0),
   wd.map (fun d => d.max),
   (List.range wind_ranges_count).map (fun j => wd.map (fun d => d.speed_data.getD j 0)))

/-- Specification view: the positive converted speeds among `samples` whose
ordinal is `i`, in series order. -/
def ordSpeeds {n : Nat} (samples : List (WindSample n)) (i : Nat) : List ℚ :=
  samples.filterMap (fun s =>
    match s.speed with
    | some sp => if 0 < sp ∧ s.ord.val = i then some sp else none
    | none => none)

/-- The effect of one sample on the record at index `i`. -/
def ordStep {n : Nat} (ranges : List ℚ) (i : Nat) (d : WindOrdData)
    (s : WindSample n) : WindOrdData :=
  match s.speed with
  | none => d
  | some sp =>
    if 0 < sp then (if s.ord.val = i then updateOrd ranges sp s.gust d else d)
    else d

/-- The range loop stops within the ranges list. -/
theorem firstIdxWhere_lt_length {p : ℚ → Bool} :
    ∀ {l : List ℚ} {j : Nat}, firstIdxWhere p l = some j → j < l.length := by
  intro l
  induction l with
  | nil => intro j h; exact absurd h (by simp [firstIdxWhere])
  | cons r rest ih =>
    intro j h
    by_cases hp : p r
    · simp [firstIdxWhere, hp] at h
      simp only [List.length_cons]
      omega
    · simp only [firstIdxWhere, hp, if_false, Bool.false_eq_true] at h
      rcases Option.map_eq_some'.mp h with ⟨j', hj', rfl⟩
      have := ih hj'
      simp only [List.length_cons]
      omega

/-- The range loop finds a bucket exactly when some range bound exceeds the
speed. -/
theorem firstIdxWhere_isSome_iff {p : ℚ → Bool} :
    ∀ {l : List ℚ}, (firstIdxWhere p l).isSome = true ↔ ∃ r ∈ l, p r = true := by
  intro l
  induction l with
  | nil => simp [firstIdxWhere]
  | cons r rest ih =>
    by_cases hp : p r
    · simp [firstIdxWhere, hp]
    · simp only [firstIdxWhere, hp, if_false, Bool.false_eq_true, Option.isSome_map']
      rw [ih]
      simp [hp]

/-- In a `≤`-sorted list every member is at most the last element. -/
theorem mem_le_getLast? {l : List ℚ} {top r : ℚ}
    (hsort : l.Pairwise (fun a b => a ≤ b)) (htop : l.getLast? = some top)
    (hr : r ∈ l) : r ≤ top := by
  induction l with
  | nil => cases hr
  | cons a rest ih =>
    cases rest with
    | nil =>
      simp at htop hr
      subst htop; subst hr
      exact le_refl _
    | cons b bs =>
      rw [List.getLast?_cons_cons] at htop
      rcases List.mem_cons.mp hr with rfl | hmem
      · have htopmem : top ∈ b :: bs := List.mem_of_mem_getLast? htop
        exact (List.pairwise_cons.mp hsort).1 top htopmem
      · exact ih (List.pairwise_cons.mp hsort).2 htop hmem

/-- `List.modify (· + 1)` at an in-range index raises the sum by one. -/
theorem sum_modify_succ :
    ∀ (l : List Nat) (j : Nat), j < l.length →
      (List.modify (fun c => c + 1) j l).sum = l.sum + 1 := by
  intro l
  induction l with
  | nil => intro j h; cases h
  | cons a t ih =>
    intro j h
    cases j with
    | zero => simp [List.modify_zero_cons]; omega
    | succ j' =>
      rw [List.modify_succ_cons]
      simp only [List.sum_cons]
      rw [ih j' (by simpa using h)]
      omega

/-- Reading a list back off by position gives the list. -/
theorem sum_getD_range (l : List Nat) :
    ((List.range l.length).map (fun j => l.getD j 0)).sum = l.sum := by
  induction l with
  | nil => rfl
  | cons a t ih =>
    rw [List.length_cons, List.range_succ_eq_map, List.map_cons, List.map_map]
    simp only [List.getD_cons_zero, List.sum_cons]
    have hcomp : ((fun j => (a :: t).getD j 0) ∘ Nat.succ) = fun j => t.getD j 0 := by
      funext j
      rfl
    rw [hcomp, ih]

/-- Folding the per-ordinal step accumulates the speed sum of that ordinal. -/
theorem foldl_ordStep_sum {n : Nat} (ranges : List ℚ) (i : Nat)
    (samples : List (WindSample n)) : ∀ d : WindOrdData,
    (samples.foldl (ordStep ranges i) d).sum = d.sum + (ordSpeeds samples i).sum := by
  induction samples with
  | nil => intro d; simp [ordSpeeds]
  | cons s ss ih =>
    intro d
    rw [List.foldl_cons, ih]
    cases hsp : s.speed with
    | none => simp [ordStep, hsp, ordSpeeds, List.filterMap_cons]
    | some sp =>
      by_cases hpos : 0 < sp
      · by_cases hord : s.ord.val = i
        · simp only [ordStep, hsp, if_pos hpos, if_pos hord, ordSpeeds,
            List.filterMap_cons, hpos, hord, and_self, if_true, List.sum_cons,
            updateOrd]
          ring
        · simp [ordStep, hsp, hpos, hord, ordSpeeds, List.filterMap_cons]
      · simp [ordStep, hsp, hpos, ordSpeeds, List.filterMap_cons]

/-- Folding the per-ordinal step counts the positive samples of that ordinal. -/
theorem foldl_ordStep_count {n : Nat} (ranges : List ℚ) (i : Nat)
    (samples : List (WindSample n)) : ∀ d : WindOrdData,
    (samples.foldl (ordStep ranges i) d).count =
      d.count + (ordSpeeds samples i).length := by
  induction samples with
  | nil => intro d; simp [ordSpeeds]
  | cons s ss ih =>
    intro d
    rw [List.foldl_cons, ih]
    cases hsp : s.speed with
    | none => simp [ordStep, hsp, ordSpeeds, List.filterMap_cons]
    | some sp =>
      by_cases hpos : 0 < sp
      · by_cases hord : s.ord.val = i
        · simp only [ordStep, hsp, if_pos hpos, if_pos hord, ordSpeeds,
            List.filterMap_cons, hpos, hord, and_self, if_true, List.length_cons,
            updateOrd]
          omega
        · simp [ordStep, hsp, hpos, hord, ordSpeeds, List.filterMap_cons]
      · simp [ordStep, hsp, hpos, ordSpeeds, List.filterMap_cons]

/-- The bucket list's length never changes. -/
theorem foldl_ordStep_speed_len {n : Nat} (ranges : List ℚ) (i : Nat)
    (samples : List (WindSample n)) : ∀ d : WindOrdData,
    (samples.foldl (ordStep ranges i) d).speed_data.length =
      d.speed_data.length := by
  induction samples with
  | nil => intro d; rfl
  | cons s ss ih =>
    intro d
    rw [List.foldl_cons, ih]
    cases hsp : s.speed with
    | none => simp [ordStep, hsp]
    | some sp =>
      by_cases hpos : 0 < sp
      · by_cases hord : s.ord.val = i
        · simp only [ordStep, hsp, if_pos hpos, if_pos hord, updateOrd]
          cases hfi : firstIdxWhere (fun r => decide (sp < r)) ranges with
          | none => rfl
          | some j => simp [List.length_modify]
        · simp [ordStep, hsp, hpos, hord]
      · simp [ordStep, hsp, hpos]

/-- The range loop finds a bucket for this speed. -/
def bucketHit (ranges : List ℚ) (sp : ℚ) : Bool :=
  (firstIdxWhere (fun r => decide (sp < r)) ranges).isSome

/-- Folding the per-ordinal step adds one bucket tick per positive sample of
the ordinal whose speed falls inside some range. -/
theorem foldl_ordStep_bucket {n : Nat} (ranges : List ℚ) (i : Nat)
    (hr : ranges.length ≤ wind_ranges_count)
    (samples : List (WindSample n)) : ∀ d : WindOrdData,
    d.speed_data.length = wind_ranges_count →
    (samples.foldl (ordStep ranges i) d).speed_data.sum =
      d.speed_data.sum + (ordSpeeds samples i).countP (bucketHit ranges) := by
  induction samples with
  | nil => intro d _; simp [ordSpeeds]
  | cons s ss ih =>
    intro d hd
    have hstep_len : (ordStep ranges i d s).speed_data.length =
        wind_ranges_count := by
      have := foldl_ordStep_speed_len ranges i [s] d
      simpa using this.trans hd
    rw [List.foldl_cons, ih (ordStep ranges i d s) hstep_len]
    cases hsp : s.speed with
    | none => simp [ordStep, hsp, ordSpeeds, List.filterMap_cons]
    | some sp =>
      by_cases hpos : 0 < sp
      · by_cases hord : s.ord.val = i
        · simp only [ordStep, hsp, if_pos hpos, if_pos hord, ordSpeeds,
            List.filterMap_cons, hpos, hord, and_self, if_true,
            List.countP_cons, updateOrd]
          cases hfi : firstIdxWhere (fun r => decide (sp < r)) ranges with
          | none =>
            have hmiss : bucketHit ranges sp = false := by
              simp [bucketHit, hfi]
            simp [hmiss]
          | some j =>
            have hhit : bucketHit ranges sp = true := by
              simp [bucketHit, hfi]
            have hj : j < d.speed_data.length := by
              rw [hd]
              exact Nat.lt_of_lt_of_le (firstIdxWhere_lt_length hfi) hr
            rw [sum_modify_succ d.speed_data j hj]
            simp [hhit]
            omega
        · simp [ordStep, hsp, hpos, hord, ordSpeeds, List.filterMap_cons]
      · simp [ordStep, hsp, hpos, ordSpeeds, List.filterMap_cons]

/-- One loop iteration only touches the record of the sample's ordinal. -/
theorem procSample_getElem? {n : Nat} (ranges : List ℚ) (wd : List WindOrdData)
    (s : WindSample n) (i : Nat) :
    (procSample ranges wd s)[i]? = (wd[i]?).map (fun d => ordStep ranges i d s) := by
  cases hsp : s.speed with
  | none =>
    simp only [procSample, hsp, ordStep]
    cases wd[i]? <;> rfl
  | some sp =>
    by_cases hpos : 0 < sp
    · simp only [procSample, hsp, if_pos hpos]
      rw [List.getElem?_modify]
      by_cases hord : s.ord.val = i
      · simp only [hord, if_pos rfl, ordStep, hsp, if_pos hpos]
        cases wd[i]? <;> rfl
      · simp only [hord, if_false]
        cases wd[i]? with
        | none => rfl
        | some d => simp [ordStep, hsp, hpos, hord]
    · simp only [procSample, hsp, if_neg hpos, ordStep]
      cases wd[i]? with
      | none => rfl
      | some d => simp [hpos]

/-- The whole loop, projected to one ordinal's record. -/
theorem foldl_procSample_getElem? {n : Nat} (ranges : List ℚ) (i : Nat)
    (samples : List (WindSample n)) : ∀ wd : List WindOrdData,
    (samples.foldl (procSample ranges) wd)[i]? =
      (wd[i]?).map (fun d => samples.foldl (ordStep ranges i) d) := by
  induction samples with
  | nil =>
    intro wd
    rw [List.foldl_nil]
    cases wd[i]? <;> rfl
  | cons s ss ih =>
    intro wd
    rw [List.foldl_cons, ih, procSample_getElem?, Option.map_map]
    rfl

/-- The loop preserves the record-list length. -/
theorem foldl_procSample_length {n : Nat} (ranges : List ℚ)
    (samples : List (WindSample n)) : ∀ wd : List WindOrdData,
    (samples.foldl (procSample ranges) wd).length = wd.length := by
  induction samples with
  | nil => intro wd; rfl
  | cons s ss ih =>
    intro wd
    rw [List.foldl_cons, ih]
    cases hsp : s.speed with
    | none => simp [procSample, hsp]
    | some sp =>
      by_cases hpos : 0 < sp
      · simp [procSample, hsp, hpos, List.length_modify]
      · simp [procSample, hsp, hpos]

/-- `wind_data` has one record per ordinate name. -/
theorem windData_length (n : Nat) (ranges : List ℚ)
    (samples : List (WindSample n)) :
    (windData n ranges samples).length = n := by
  rw [windData, foldl_procSample_length]
  simp [initWindData]

/-- The record of ordinal `i < n` is the zero record folded through the
per-ordinal step. -/
theorem windData_getElem? (n : Nat) (ranges : List ℚ)
    (samples : List (WindSample n)) (i : Nat) (hi : i < n) :
    (windData n ranges samples)[i]? =
      some (samples.foldl (ordStep ranges i)
        { sum := 0, count := 0, max := 0,
          speed_data := List.replicate wind_ranges_count 0 }) := by
  rw [windData, foldl_procSample_getElem?]
  rw [initWindData, List.getElem?_replicate]
  simp [hi]

/-- With a sorted range table the loop finds a bucket exactly for speeds
strictly below the top bound. -/
theorem bucketHit_iff (ranges : List ℚ) (top sp : ℚ)
    (hsort : ranges.Pairwise (fun a b => a ≤ b))
    (htop : ranges.getLast? = some top) :
    bucketHit ranges sp = decide (sp < top) := by
  by_cases hlt : sp < top
  · have htrue : bucketHit ranges sp = true :=
      firstIdxWhere_isSome_iff.mpr
        ⟨top, List.mem_of_mem_getLast? htop, by simpa using hlt⟩
    simp [htrue, hlt]
  · have hfalse : bucketHit ranges sp = false := by
      cases hbh : bucketHit ranges sp
      · rfl
      · exfalso
        rcases firstIdxWhere_isSome_iff.mp hbh with ⟨r, hrmem, hpr⟩
        exact hlt (lt_of_lt_of_le (of_decide_eq_true hpr)
          (mem_le_getLast? hsort htop hrmem))
    simp [hfalse, hlt]

/-- C10: `_get_wind_compass` always returns three results of consistent
shape: one average and one maximum per compass ordinal
(`len(ordinate_names) - 1` entries, here `n`), and exactly
`wind_ranges_count = 7` bucket lists of one count per ordinal; each
ordinal's average is its positive-speed sum divided by its sample count and
`0.0` with no samples. -/
theorem wind_compass_shape_spec (n : Nat) (ranges : List ℚ)
    (samples : List (WindSample n)) :
    (get_wind_compass n ranges samples).1.length = n ∧
    (get_wind_compass n ranges samples).2.1.length = n ∧
    (get_wind_compass n ranges samples).2.2.length = wind_ranges_count ∧
    (∀ l ∈ (get_wind_compass n ranges samples).2.2, l.length = n) ∧
    (∀ i, i < n →
      (get_wind_compass n ranges samples).1[i]? =
        some (if 0 < (ordSpeeds samples i).length then
          (ordSpeeds samples i).sum / ((ordSpeeds samples i).length : ℚ)
        else 0)) := by
  refine ⟨?_, ?_, ?_, ?_, ?_⟩
  · simp [get_wind_compass, windData_length]
  · simp [get_wind_compass, windData_length]
  · simp [get_wind_compass]
  · intro l hl
    simp only [get_wind_compass, List.mem_map] at hl
    rcases hl with ⟨j, hj, rfl⟩
    simp [windData_length]
  · intro i hi
    simp only [get_wind_compass]
    rw [List.getElem?_map, windData_getElem? n ranges samples i hi]
    simp [foldl_ordStep_count, foldl_ordStep_sum]


/-- A concrete single-ordinal sample used in the witnesses below. -/
def sampleOrd0 (sp gust : ℚ) : WindSample 1 :=
  { speed := some sp, ord := ⟨0, Nat.one_pos⟩, gust := gust }

/-- Witness for C10 at one ordinal and one 3 mph sample: the bucket column
holding the sample has one entry, and the average entry is the claimed
quotient. -/
theorem wind_compass_shape_spec_witness :
    (([1] : List Nat) ∈ (get_wind_compass 1 [1, 4, 8, 13, 19, 25, 32]
        [sampleOrd0 3 5]).2.2 ∧
      ([1] : List Nat).length = 1) ∧
    (get_wind_compass 1 [1, 4, 8, 13, 19, 25, 32] [sampleOrd0 3 5]).1[0]? =
      some (if 0 < (ordSpeeds [sampleOrd0 3 5] 0).length then
        (ordSpeeds [sampleOrd0 3 5] 0).sum /
          ((ordSpeeds [sampleOrd0 3 5] 0).length : ℚ)
      else 0) :=
  ⟨⟨by decide,
    (wind_compass_shape_spec 1 [1, 4, 8, 13, 19, 25, 32]
      [sampleOrd0 3 5]).2.2.2.1 [1] (by decide)⟩,
   (wind_compass_shape_spec 1 [1, 4, 8, 13, 19, 25, 32]
      [sampleOrd0 3 5]).2.2.2.2 0 (by decide)⟩

/-- C1 counterexample: a 40 mph sample (at or above the 32 mph top bound of
the `mile_per_hour` table) increments its ordinal's count but no speed-range
bucket, so the bucket sums do not add up to the positive-sample count. -/
theorem wind_compass_bucket_sum_counterexample :
    ¬ ((((get_wind_compass 1 [1, 4, 8, 13, 19, 25, 32]
          [sampleOrd0 40 0]).2.2).map (fun l => l.getD 0 0)).sum =
        (ordSpeeds [sampleOrd0 40 0] 0).length) := by
  decide

/-- Reading off `l` along `List.range m` when `l` has length `m`. -/
theorem sum_getD_range_of_length (l : List Nat) (m : Nat) (h : l.length = m) :
    ((List.range m).map (fun j => l.getD j 0)).sum = l.sum := by
  subst h
  exact sum_getD_range l

/-- C1 (amended): for a sorted 7-entry range table with top bound `top`,
every positive-speed sample strictly below `top` lands in exactly one bucket
of its compass ordinal and a sample at or above `top` in none, so each
ordinal's bucket sums add up to its count of positive samples strictly below
the top bound (not to its full positive-sample count). -/
theorem wind_compass_bucket_sum (n : Nat) (ranges : List ℚ) (top : ℚ)
    (samples : List (WindSample n))
    (hsort : ranges.Pairwise (fun a b => a ≤ b))
    (htop : ranges.getLast? = some top)
    (hlen : ranges.length = wind_ranges_count)
    (i : Nat) (hi : i < n) :
    (((get_wind_compass n ranges samples).2.2).map (fun l => l.getD i 0)).sum =
      ((ordSpeeds samples i).filter (fun sp => decide (sp < top))).length := by
  have hcol : ∀ j : Nat,
      ((windData n ranges samples).map (fun d => d.speed_data.getD j 0)).getD i 0 =
        (samples.foldl (ordStep ranges i)
          { sum := 0, count := 0, max := 0,
            speed_data := List.replicate wind_ranges_count 0 }).speed_data.getD j 0 := by
    intro j
    rw [List.getD_eq_getElem?_getD, List.getElem?_map,
      windData_getElem? n ranges samples i hi]
    rfl
  simp only [get_wind_compass, List.map_map]
  have hmap : (List.range wind_ranges_count).map
      ((fun l => l.getD i 0) ∘ (fun j => (windData n ranges samples).map
        (fun d => d.speed_data.getD j 0))) =
      (List.range wind_ranges_count).map (fun j =>
        (samples.foldl (ordStep ranges i)
          { sum := 0, count := 0, max := 0,
            speed_data := List.replicate wind_ranges_count 0 }).speed_data.getD j 0) :=
    List.map_congr_left (fun j _ => hcol j)
  rw [hmap]
  have hsdlen : (samples.foldl (ordStep ranges i)
      { sum := 0, count := 0, max := 0,
        speed_data := List.replicate wind_ranges_count 0 }).speed_data.length =
      wind_ranges_count := by
    rw [foldl_ordStep_speed_len]
    simp
  rw [sum_getD_range_of_length _ wind_ranges_count hsdlen]
  rw [foldl_ordStep_bucket ranges i (le_of_eq hlen) samples _ (by simp)]
  simp only [List.sum_replicate, smul_eq_mul, Nat.mul_zero, Nat.zero_add]
  rw [List.countP_eq_length_filter]
  congr 1
  apply List.filter_congr
  intro sp _
  exact bucketHit_iff ranges top sp hsort htop

/-- Witness for C1 (amended) with the `mile_per_hour` table and a single
3 mph sample at ordinal 0. -/
theorem wind_compass_bucket_sum_witness :
    (((get_wind_compass 1 [1, 4, 8, 13, 19, 25, 32]
        [sampleOrd0 3 0]).2.2).map (fun l => l.getD 0 0)).sum =
      ((ordSpeeds [sampleOrd0 3 0] 0).filter
        (fun sp => decide (sp < 32))).length :=
  wind_compass_bucket_sum 1 [1, 4, 8, 13, 19, 25, 32] 32 [sampleOrd0 3 0]
    (by decide) (by decide) (by decide) 0 (by decide)
